import Mathlib

/-!
Verification of the PyShellX shell emulator (src/PyShellX.py).

The development shallowly embeds the core of the program: the tokenizer
(`shlex.split` in posix mode with whitespace splitting, as called by
`parse_input`), the redirection extractor (`handle_redirection`), the
per-builtin behaviors and the external executor, and the per-line
dispatch of `main`.  Filesystem and process collaborators
(`os.chdir`, the `open` of redirection targets,
`os.path.isfile`/`os.access`, `shutil.which`, `subprocess.run`) are
modelled as response functions carried by an environment record `Env`;
the observable behavior of one input line is a
list of write `Effect`s on the session's streams and redirected files,
together with an `Outcome` saying whether the read-execute loop
continues, exits with status 0, or is terminated by an uncaught
exception.
-/

namespace PyShellX

/-- Where one write of text goes: the session's standard output, the
session's standard error, or a file opened with the given append flag. -/
inductive Sink where
  | stdout
  | stderr
  | file (path : String) (append : Bool)
  deriving DecidableEq

/-- One observable write of text to a sink. -/
structure Effect where
  sink : Sink
  text : String
  deriving DecidableEq

/-! ## Tokenizer: `shlex.split(user_input, posix=True)` as called by `parse_input` -/

/-- The whitespace characters of `shlex` (`shlex.whitespace = " \t\r\n"`). -/
def isShWhitespace (c : Char) : Bool :=
  c = ' ' || c = '\t' || c = '\r' || c = '\n'

/-- Lexer state of `shlex.read_token`: outside a token (state `' '`),
inside a word (state `'a'`), inside single or double quotes, or just
after a backslash (with the saved `escapedstate` being the word state or
the double-quote state; a backslash inside single quotes is literal). -/
inductive LexMode where
  | space
  | word
  | singleQ
  | doubleQ
  | escWord
  | escDouble
  deriving DecidableEq

/-- One-pass transcription of `shlex.read_token` iterated to the end of
input (`shlex.split` with `posix=True` and `whitespace_split=True`):
`quoted` and `tok` are the `quoted` flag and current `token` of the
lexer, `acc` collects emitted tokens in reverse.  An unterminated quote
raises `ValueError("No closing quotation")`; a trailing backslash raises
`ValueError("No escaped character")`. -/
def shlexRun : List Char → LexMode → Bool → List Char → List (List Char) →
    Except String (List (List Char))
  | [], mode, quoted, tok, acc =>
    match mode with
    | .space => .ok acc.reverse
    | .word =>
      if !tok.isEmpty || quoted then .ok ((tok :: acc).reverse) else .ok acc.reverse
    | .singleQ => .error "No closing quotation"
    | .doubleQ => .error "No closing quotation"
    | .escWord => .error "No escaped character"
    | .escDouble => .error "No escaped character"
  | c :: cs, mode, quoted, tok, acc =>
    match mode with
    | .space =>
      if isShWhitespace c then
        if !tok.isEmpty || quoted then shlexRun cs .space false [] (tok :: acc)
        else shlexRun cs .space quoted tok acc
      else if c = '\\' then shlexRun cs .escWord quoted tok acc
      else if c = '\'' then shlexRun cs .singleQ quoted tok acc
      else if c = '"' then shlexRun cs .doubleQ quoted tok acc
      else shlexRun cs .word quoted (tok ++ [c]) acc
    | .word =>
      if isShWhitespace c then
        if !tok.isEmpty || quoted then shlexRun cs .space false [] (tok :: acc)
        else shlexRun cs .space quoted tok acc
      else if c = '\'' then shlexRun cs .singleQ quoted tok acc
      else if c = '"' then shlexRun cs .doubleQ quoted tok acc
      else if c = '\\' then shlexRun cs .escWord quoted tok acc
      else shlexRun cs .word quoted (tok ++ [c]) acc
    | .singleQ =>
      if c = '\'' then shlexRun cs .word true tok acc
      else shlexRun cs .singleQ true (tok ++ [c]) acc
    | .doubleQ =>
      if c = '"' then shlexRun cs .word true tok acc
      else if c = '\\' then shlexRun cs .escDouble true tok acc
      else shlexRun cs .doubleQ true (tok ++ [c]) acc
    | .escWord => shlexRun cs .word quoted (tok ++ [c]) acc
    | .escDouble =>
      if c ≠ '\\' ∧ c ≠ '"' then shlexRun cs .doubleQ quoted (tok ++ ['\\', c]) acc
      else shlexRun cs .doubleQ quoted (tok ++ [c]) acc

/-- Model of `shlex.split(s, posix=True)`: the full token list of a line, or the
message of the `ValueError` the lexer raises. -/
def shlex_split (s : String) : Except String (List String) :=
  match shlexRun s.toList .space false [] [] with
  | .ok toks => .ok (toks.map fun t => String.mk t)
  | .error e => .error e

/-- Model of `parse_input`: on a `ValueError` from `shlex.split` it prints
`Parsing error: <e>` to standard error and returns the empty token
list. -/
def parse_input (s : String) : List String × List Effect :=
  match shlex_split s with
  | .ok toks => (toks, [])
  | .error e => ([], [⟨Sink.stderr, "Parsing error: " ++ e ++ "\n"⟩])

/-- The whitespace stripped by Python's `str.strip()`: the characters
for which `str.isspace()` holds (ASCII whitespace, the information
separators, next line, no-break space, and the Unicode space
separators). -/
def isPyWhitespace (c : Char) : Bool :=
  c = ' ' || c = '\t' || c = '\n' || c = '\r' || c.val = 11 || c.val = 12 ||
  (28 ≤ c.val && c.val ≤ 31) || c.val = 133 || c.val = 160 || c.val = 5760 ||
  (8192 ≤ c.val && c.val ≤ 8202) || c.val = 8232 || c.val = 8233 ||
  c.val = 8239 || c.val = 8287 || c.val = 12288

/-- Model of `user_input.strip()`: remove leading and trailing whitespace. -/
def pyStrip (s : String) : String :=
  String.mk (((s.toList.dropWhile isPyWhitespace).reverse.dropWhile isPyWhitespace).reverse)

/-! ## Redirection extractor: `handle_redirection` -/

/-- The five values returned by `handle_redirection`, plus the list of
syntax-error messages it prints to standard error along the way. -/
structure RedirResult where
  clean : List String
  output_file : Option String
  append_output : Bool
  error_file : Option String
  append_error : Bool
  errs : List String
  deriving DecidableEq

/-- The `while i < len(command_parts)` loop of `handle_redirection`:
`clean` is `clean_command` built so far, the four spec fields are the
current values of `output_file`, `append_output`, `error_file`,
`append_error`, and `errs` collects the printed syntax errors.  A
directive with a following token consumes both; a directive that is the
last token only prints the error. -/
def hrLoop : List String → List String → Option String → Bool → Option String → Bool →
    List String → RedirResult
  | [], clean, o, ao, e, ae, errs => ⟨clean, o, ao, e, ae, errs⟩
  | t :: rest, clean, o, ao, e, ae, errs =>
    if t = ">" ∨ t = "1>" then
      match rest with
      | f :: r2 => hrLoop r2 clean (some f) false e ae errs
      | [] => ⟨clean, o, ao, e, ae,
          errs ++ ["Syntax error: Missing file for output redirection"]⟩
    else if t = ">>" ∨ t = "1>>" then
      match rest with
      | f :: r2 => hrLoop r2 clean (some f) true e ae errs
      | [] => ⟨clean, o, ao, e, ae,
          errs ++ ["Syntax error: Missing file for output redirection"]⟩
    else if t = "2>" then
      match rest with
      | f :: r2 => hrLoop r2 clean o ao (some f) false errs
      | [] => ⟨clean, o, ao, e, ae,
          errs ++ ["Syntax error: Missing file for error redirection"]⟩
    else if t = "2>>" then
      match rest with
      | f :: r2 => hrLoop r2 clean o ao (some f) true errs
      | [] => ⟨clean, o, ao, e, ae,
          errs ++ ["Syntax error: Missing file for error redirection"]⟩
    else hrLoop rest (clean ++ [t]) o ao e ae errs

/-- Model of `handle_redirection(command_parts)` with the initial accumulator
values from the source (`None`, `False`, `None`, `False`, `[]`). -/
def handle_redirection (command_parts : List String) : RedirResult :=
  hrLoop command_parts [] none false none false []

/-- A token recognized as an output-stream directive. -/
def isOutputDirective (t : String) : Bool :=
  t = ">" || t = "1>" || t = ">>" || t = "1>>"

/-- A token recognized as an error-stream directive. -/
def isErrorDirective (t : String) : Bool :=
  t = "2>" || t = "2>>"

/-- A token recognized as any redirection directive. -/
def isDirective (t : String) : Bool :=
  isOutputDirective t || isErrorDirective t

/-- An output directive in append mode. -/
def isAppendDirective (t : String) : Bool :=
  t = ">>" || t = "1>>" || t = "2>>"

/-! ## Environment: the filesystem and process collaborators -/

/-- How the `cd` built-in's `os.chdir` can fail: the three exception
classes caught by `change_directory`.  The collaborator modelled here
answers only with these classes; an `OSError` outside them (e.g. a
symlink loop) is not represented, and in the source such a failure
would escape `change_directory` uncaught and terminate the session. -/
inductive ChdirError where
  | fileNotFound
  | notADirectory
  | permissionDenied
  deriving DecidableEq

/-- The Python exception class name of a `ChdirError`. -/
def ChdirError.excName : ChdirError → String
  | .fileNotFound => "FileNotFoundError"
  | .notADirectory => "NotADirectoryError"
  | .permissionDenied => "PermissionError"

/-- Response of the `try` block of `run_external_command` (the opens of
the redirection files together with `subprocess.run`): normal
completion with captured stdout and stderr text, or the class of the
exception the block raised — every exception there is caught by one of
the three handlers. -/
inductive LaunchOutcome where
  | finished (stdoutText : String) (stderrText : String)
  | fileNotFound
  | permissionDenied
  | otherFailure (detail : String)
  deriving DecidableEq

/-- The session state and the responses of the external collaborators:
the `HOME` environment value, the current working directory, the answer
of `os.chdir` for a target path, the exception (if any) raised by
`open(path, mode)` on a redirection target in the unguarded `echo`/`pwd`
branches of `main`, the combined `os.path.isfile ∧ os.access(·, X_OK)`
check, `shutil.which`, and the outcome of `run_external_command`'s
`try` block for an argument vector. -/
structure Env where
  home : Option String
  cwd : String
  fsChdir : String → Option ChdirError
  fsOpen : String → Option String
  isExecFile : String → Bool
  which : String → Option String
  launch : List String → LaunchOutcome

/-- Model of `find_executable(command)`: `shutil.which`, i.e. the search-path
collaborator. -/
def find_executable (env : Env) (command : String) : Option String :=
  env.which command

/-- Model of `os.path.abspath` relative to a working directory (path
normalization is not modelled; no claim depends on it). -/
def absPath (cwd p : String) : String :=
  if p.startsWith "/" then p else cwd ++ "/" ++ p

/-! ## External executor and built-ins -/

/-- The set of built-in command names, `BUILTIN_COMMANDS` in the source. -/
def BUILTIN_COMMANDS : List String :=
  ["echo", "exit", "type", "pwd", "cd"]

/-- Model of `run_external_command`: runs `command_parts`; the child's stdout
and stderr go to the redirection files when given (in write or append
mode), otherwise the captured text is forwarded to the session's
streams after completion; the three caught exception classes each
produce one diagnostic on standard error. -/
def run_external_command (env : Env) (command_parts : List String)
    (output_file : Option String) (append_output : Bool)
    (error_file : Option String) (append_error : Bool) : List Effect :=
  match env.launch command_parts with
  | .finished so se =>
    (match output_file with
     | some f => [⟨Sink.file f append_output, so⟩]
     | none => [⟨Sink.stdout, so⟩]) ++
    (match error_file with
     | some g => [⟨Sink.file g append_error, se⟩]
     | none => [⟨Sink.stderr, se⟩])
  | .fileNotFound => [⟨Sink.stderr, command_parts.headI ++ ": command not found\n"⟩]
  | .permissionDenied => [⟨Sink.stderr, command_parts.headI ++ ": permission denied\n"⟩]
  | .otherFailure d => [⟨Sink.stderr, "Error running command: " ++ d ++ "\n"⟩]

/-- Model of `execute_quoted_executable`: if the first token is an existing
executable regular file, run it directly; else resolve it on the search
path and run the resolved path (substituted for `command_parts[0]`);
else print `<name>: command not found`. -/
def execute_quoted_executable (env : Env) (hd : String) (tl : List String)
    (output_file : Option String) (append_output : Bool)
    (error_file : Option String) (append_error : Bool) : List Effect :=
  if env.isExecFile hd then
    run_external_command env (hd :: tl) output_file append_output error_file append_error
  else
    match find_executable env hd with
    | some p => run_external_command env (p :: tl) output_file append_output error_file append_error
    | none => [⟨Sink.stderr, hd ++ ": command not found\n"⟩]

/-- The `path = os.environ.get("HOME", "/") if path == "~"` step of
`change_directory`. -/
def tildeResolve (env : Env) (path : String) : String :=
  if path = "~" then env.home.getD "/" else path

/-- Model of `change_directory(path)`: resolve `~`, take the absolute path,
attempt `os.chdir`; on success the working directory changes, on each
of the three caught failures the directory is unchanged and one
`cd: <path>: <reason>` diagnostic goes to standard error. -/
def change_directory (env : Env) (path : String) : Env × List Effect :=
  match env.fsChdir (absPath env.cwd (tildeResolve env path)) with
  | none => ({ env with cwd := absPath env.cwd (tildeResolve env path) }, [])
  | some .fileNotFound =>
      (env, [⟨Sink.stderr,
        "cd: " ++ tildeResolve env path ++ ": No such file or directory\n"⟩])
  | some .notADirectory =>
      (env, [⟨Sink.stderr, "cd: " ++ tildeResolve env path ++ ": Not a directory\n"⟩])
  | some .permissionDenied =>
      (env, [⟨Sink.stderr, "cd: " ++ tildeResolve env path ++ ": Permission denied\n"⟩])

/-- The successful writes of the `echo` branch of `main`: join the
arguments with single spaces; write the line to the output redirection
file when one was extracted, else print it to standard output.  The
branch's `open(output_file, mode)` stands inside no local `try`; its
failure is an uncaught exception, modelled in `runCommand`. -/
def runEcho (args : List String) (output_file : Option String)
    (append_output : Bool) : List Effect :=
  let out := String.intercalate " " args
  match output_file with
  | some f => [⟨Sink.file f append_output, out ++ "\n"⟩]
  | none => [⟨Sink.stdout, out ++ "\n"⟩]

/-- The `type` branch of `main` applied to `command_parts[1]`: built-ins
are reported as such; otherwise only `find_executable` (the search
path) is consulted.  The branch never looks at the redirection spec. -/
def runType (env : Env) (cmd_to_check : String) : List Effect :=
  if cmd_to_check ∈ BUILTIN_COMMANDS then
    [⟨Sink.stdout, cmd_to_check ++ " is a shell builtin\n"⟩]
  else
    match find_executable env cmd_to_check with
    | some p => [⟨Sink.stdout, cmd_to_check ++ " is " ++ p ++ "\n"⟩]
    | none => [⟨Sink.stderr, cmd_to_check ++ ": not found\n"⟩]

/-- The successful writes of the `pwd` branch of `main`: `os.getcwd()`
written to the output redirection file when one was extracted, else
printed.  As with `echo`, the branch's `open` failure is an uncaught
exception, modelled in `runCommand`. -/
def runPwd (env : Env) (output_file : Option String)
    (append_output : Bool) : List Effect :=
  match output_file with
  | some f => [⟨Sink.file f append_output, env.cwd ++ "\n"⟩]
  | none => [⟨Sink.stdout, env.cwd ++ "\n"⟩]

/-! ## Per-line dispatch of `main` -/

/-- Result of processing one input line: the loop continues to the next
prompt (possibly with a changed working directory), the session exits
with status 0 (`sys.exit(0)` on `exit 0`), or an exception escapes the
line's processing — only `EOFError` and `KeyboardInterrupt` are caught
by the loop, so any other exception terminates the session. -/
inductive Outcome where
  | cont (env : Env) (effects : List Effect)
  | exitZero (effects : List Effect)
  | crash (exc : String) (effects : List Effect)

/-- Prepend effects that already happened to an outcome's effects. -/
def Outcome.withPre (pre : List Effect) : Outcome → Outcome
  | .cont env effs => .cont env (pre ++ effs)
  | .exitZero effs => .exitZero (pre ++ effs)
  | .crash e effs => .crash e (pre ++ effs)

/-- Whether the outcome is an escaped exception. -/
def Outcome.isCrash : Outcome → Bool
  | .crash _ _ => true
  | _ => false

/-- Whether the outcome is the `sys.exit(0)` of the `exit` built-in. -/
def Outcome.isExit : Outcome → Bool
  | .exitZero _ => true
  | _ => false

/-- The dispatch chain of `main` on the nonempty clean token list
`hd :: args`, given the extracted redirection spec: the `exit 0` test,
then `echo`, `type`, `pwd`, `cd`, then `execute_quoted_executable`.
Four operations stand inside no local `try`, so their failures escape:
`echo` and `pwd` open their extracted output target unguarded
(`with open(output_file, mode)`), `type` with no argument evaluates
`command_parts[1]` out of range (`IndexError`), and `cd` with no
argument runs `os.chdir` on the home directory unguarded. -/
def runCommand (env : Env) (hd : String) (args : List String)
    (output_file : Option String) (append_output : Bool)
    (error_file : Option String) (append_error : Bool) : Outcome :=
  if hd = "exit" ∧ (hd :: args).length = 2 ∧ (hd :: args)[1]? = some "0" then
    .exitZero []
  else if hd = "echo" then
    match output_file with
    | some f =>
      match env.fsOpen f with
      | some exc => .crash exc []
      | none => .cont env (runEcho args (some f) append_output)
    | none => .cont env (runEcho args none append_output)
  else if hd = "type" then
    match args with
    | [] => .crash "IndexError" []
    | cmd_to_check :: _ => .cont env (runType env cmd_to_check)
  else if hd = "pwd" then
    match output_file with
    | some f =>
      match env.fsOpen f with
      | some exc => .crash exc []
      | none => .cont env (runPwd env (some f) append_output)
    | none => .cont env (runPwd env none append_output)
  else if hd = "cd" then
    match args with
    | p :: _ =>
      let r := change_directory env p
      .cont r.1 r.2
    | [] =>
      let home_path := env.home.getD "/"
      match env.fsChdir home_path with
      | none => .cont { env with cwd := home_path } []
      | some ce => .crash ce.excName []
  else
    .cont env (execute_quoted_executable env hd args output_file append_output
      error_file append_error)

/-- One iteration of the `while True` loop of `main` on one raw input
line: strip, skip empty lines, tokenize (a parse error prints and
yields no tokens), extract redirections (printing their syntax errors),
skip lines with no clean tokens, then dispatch. -/
def processLine (env : Env) (rawLine : String) : Outcome :=
  let line := pyStrip rawLine
  if line = "" then .cont env []
  else
    let parsed := parse_input line
    if parsed.1 = [] then .cont env parsed.2
    else
      let R := handle_redirection parsed.1
      let pre := parsed.2 ++ R.errs.map fun m => ⟨Sink.stderr, m ++ "\n"⟩
      match R.clean with
      | [] => .cont env pre
      | hd :: args =>
        (runCommand env hd args R.output_file R.append_output
          R.error_file R.append_error).withPre pre

/-- The clean tokens that one raw line dispatches on. -/
def cleanTokensOf (rawLine : String) : List String :=
  (handle_redirection (parse_input (pyStrip rawLine)).1).clean

/-- The extracted output target that one raw line dispatches with. -/
def outputTargetOf (rawLine : String) : Option String :=
  (handle_redirection (parse_input (pyStrip rawLine)).1).output_file

/-- The resolution decision inside `execute_quoted_executable`: a name
passing the direct executable-file check resolves to itself, otherwise
the search path decides. -/
def resolverExternalPath (env : Env) (name : String) : Option String :=
  if env.isExecFile name then some name else find_executable env name

/-! ## Sample sessions used by concrete theorems -/

/-- A session whose filesystem answers every request benignly: `cd`
always succeeds, no direct executable files, an empty search path, and
every launch completes with empty output. -/
def envBenign : Env :=
  { home := some "/home/u"
    cwd := "/w"
    fsChdir := fun _ => none
    fsOpen := fun _ => none
    isExecFile := fun _ => false
    which := fun _ => none
    launch := fun _ => LaunchOutcome.finished "" "" }

/-- A session whose home directory does not exist: every `os.chdir`
raises `FileNotFoundError`. -/
def envNoHome : Env :=
  { home := some "/nohome"
    cwd := "/w"
    fsChdir := fun _ => some ChdirError.fileNotFound
    fsOpen := fun _ => none
    isExecFile := fun _ => false
    which := fun _ => none
    launch := fun _ => LaunchOutcome.finished "" "" }

/-- A session where the bare name `localtool` denotes an executable
regular file in the working directory and the working directory is not
on the search path.  This state is realizable: `os.path.isfile` and
`os.access` accept the bare relative name (it resolves against the
working directory), while `shutil.which` on a name with no directory
component searches only the PATH directories and finds nothing; for the
same reason the operating system's `exec` PATH search fails when the
bare name is launched, so `subprocess.run` raises
`FileNotFoundError`. -/
def envCwdTool : Env :=
  { home := some "/home/u"
    cwd := "/w"
    fsChdir := fun _ => none
    fsOpen := fun _ => none
    isExecFile := fun s => s == "localtool"
    which := fun _ => none
    launch := fun _ => LaunchOutcome.fileNotFound }

/-- A session where every program launch raises `FileNotFoundError`
(the executable vanished between resolution and invocation). -/
def envVanished : Env :=
  { home := some "/home/u"
    cwd := "/w"
    fsChdir := fun _ => none
    fsOpen := fun _ => none
    isExecFile := fun _ => true
    which := fun _ => none
    launch := fun _ => LaunchOutcome.fileNotFound }

/-- A session where opening any path for writing raises
`IsADirectoryError` — as `open` does when the redirection target names
a directory, e.g. the target `/`. -/
def envUnwritable : Env :=
  { home := some "/home/u"
    cwd := "/w"
    fsChdir := fun _ => none
    fsOpen := fun _ => some "IsADirectoryError"
    isExecFile := fun _ => false
    which := fun _ => none
    launch := fun _ => LaunchOutcome.finished "" "" }

/-- The `<reason>` text of the `cd: <path>: <reason>` diagnostics. -/
def ChdirError.reason : ChdirError → String
  | .fileNotFound => "No such file or directory"
  | .notADirectory => "Not a directory"
  | .permissionDenied => "Permission denied"

/-- The syntax-error message printed for a directive of the given kind
that is missing its filename. -/
def missingFileMsg (d : String) : String :=
  if isOutputDirective d then "Syntax error: Missing file for output redirection"
  else "Syntax error: Missing file for error redirection"


/-! ## Sanity checks against the Python behavior -/

example : shlex_split "echo '>' f" = .ok ["echo", ">", "f"] := rfl
example : shlex_split "\"a\\$b\"" = .ok ["a\\$b"] := rfl
example : shlex_split "echo \"a  b\" c" = .ok ["echo", "a  b", "c"] := rfl
example : shlex_split "echo \"unterminated" = .error "No closing quotation" := rfl
example : shlex_split "\"\"  x" = .ok ["", "x"] := rfl
example : pyStrip "  cd \n" = "cd" := rfl
example : handle_redirection ["echo", "hi", ">", "out.txt"]
    = ⟨["echo", "hi"], some "out.txt", false, none, false, []⟩ := rfl
example : handle_redirection ["echo", ">"]
    = ⟨["echo"], none, false, none, false,
        ["Syntax error: Missing file for output redirection"]⟩ := rfl
example : handle_redirection ["2>", ">", "x"]
    = ⟨["x"], none, false, some ">", false, []⟩ := rfl
example : processLine envBenign "type cd > f"
    = .cont envBenign [⟨Sink.stdout, "cd is a shell builtin\n"⟩] := rfl
example : processLine envBenign "echo '>' f"
    = .cont envBenign [⟨Sink.file "f" false, "\n"⟩] := rfl
example : (processLine envNoHome "cd").isCrash = true := rfl
example : processLine envBenign "exit 0" = .exitZero [] := rfl
example : processLine envBenign "   " = .cont envBenign [] := rfl
example : processLine envBenign "echo hi > f"
    = .cont envBenign [⟨Sink.file "f" false, "hi\n"⟩] := rfl
example : (processLine envUnwritable "echo hi > /").isCrash = true := rfl
example : (processLine envUnwritable "pwd > /").isCrash = true := rfl
example : execute_quoted_executable envCwdTool "localtool" [] none false none false
    = [⟨Sink.stderr, "localtool: command not found\n"⟩] := rfl

/-! ## Structural lemmas about the extraction scan -/

/-- A non-directive token is appended to the clean command and the scan
moves on. -/
lemma hrLoop_cons_other (t : String) (X clean : List String) (o : Option String) (ao : Bool)
    (e : Option String) (ae : Bool) (errs : List String)
    (h1 : ¬(t = ">" ∨ t = "1>")) (h2 : ¬(t = ">>" ∨ t = "1>>"))
    (h3 : ¬t = "2>") (h4 : ¬t = "2>>") :
    hrLoop (t :: X) clean o ao e ae errs = hrLoop X (clean ++ [t]) o ao e ae errs := by
  cases X with
  | nil => simp [hrLoop, h1, h2, h3, h4]
  | cons f r2 => simp [hrLoop, h1, h2, h3, h4]

/-- The scan of a token list followed by a suffix factors through the
scan of the prefix, provided the prefix produced no syntax error (i.e.
it does not end in a directive missing its filename). -/
lemma hrLoop_append (suffix ts clean : List String) (o : Option String) (ao : Bool)
    (e : Option String) (ae : Bool) (errs : List String)
    (h : (hrLoop ts clean o ao e ae errs).errs = errs) :
    hrLoop (ts ++ suffix) clean o ao e ae errs =
      hrLoop suffix (hrLoop ts clean o ao e ae errs).clean
        (hrLoop ts clean o ao e ae errs).output_file
        (hrLoop ts clean o ao e ae errs).append_output
        (hrLoop ts clean o ao e ae errs).error_file
        (hrLoop ts clean o ao e ae errs).append_error
        errs := by
  induction ts, clean, o, ao, e, ae, errs using hrLoop.induct with
  | case1 clean o ao e ae errs => simp [hrLoop]
  | case2 t clean o ao e ae errs ht f r2 ih =>
    simp only [List.cons_append]
    simp only [hrLoop, ht] at h ⊢
    simp only [if_true, true_or, or_true] at h ⊢
    exact ih h
  | case3 t clean o ao e ae errs ht =>
    simp [hrLoop, ht] at h
  | case4 t clean o ao e ae errs hn ht f r2 ih =>
    simp only [List.cons_append]
    simp only [hrLoop, ht, hn] at h ⊢
    simp only [if_true, if_false] at h ⊢
    exact ih h
  | case5 t clean o ao e ae errs hn ht =>
    simp [hrLoop, ht, hn] at h
  | case6 clean o ao e ae errs f r2 hn1 hn2 ih =>
    simp only [List.cons_append]
    simp only [hrLoop, hn1, hn2] at h ⊢
    simp only [if_true, if_false] at h ⊢
    exact ih h
  | case7 clean o ao e ae errs hn1 hn2 =>
    simp [hrLoop, hn1, hn2] at h
  | case8 clean o ao e ae errs f r2 hn1 hn2 hn3 ih =>
    simp only [List.cons_append]
    simp only [hrLoop, hn1, hn2, hn3] at h ⊢
    simp only [if_true, if_false] at h ⊢
    exact ih h
  | case9 clean o ao e ae errs hn1 hn2 hn3 =>
    simp [hrLoop, hn1, hn2, hn3] at h
  | case10 t rest clean o ao e ae errs h1 h2 h3 h4 ih =>
    rw [List.cons_append,
      hrLoop_cons_other t (rest ++ suffix) clean o ao e ae errs h1 h2 h3 h4]
    rw [hrLoop_cons_other t rest clean o ao e ae errs h1 h2 h3 h4] at h ⊢
    exact ih h

/-- The clean tokens are a subsequence of the scanned tokens appended to
the accumulator: non-consumed tokens keep their original order. -/
lemma hrLoop_clean_sublist (ts clean : List String) (o : Option String) (ao : Bool)
    (e : Option String) (ae : Bool) (errs : List String) :
    (hrLoop ts clean o ao e ae errs).clean.Sublist (clean ++ ts) := by
  induction ts, clean, o, ao, e, ae, errs using hrLoop.induct with
  | case1 clean o ao e ae errs => simp [hrLoop]
  | case2 t clean o ao e ae errs ht f r2 ih =>
    simp only [hrLoop, ht, if_true, true_or, or_true]
    exact ih.trans (List.Sublist.append_left
      (((List.Sublist.refl r2).cons f).cons t) clean)
  | case3 t clean o ao e ae errs ht =>
    simp only [hrLoop, ht, if_true, true_or, or_true]
    exact List.sublist_append_left clean [t]
  | case4 t clean o ao e ae errs hn ht f r2 ih =>
    simp only [hrLoop, ht, hn, if_true, if_false]
    exact ih.trans (List.Sublist.append_left
      (((List.Sublist.refl r2).cons f).cons t) clean)
  | case5 t clean o ao e ae errs hn ht =>
    simp only [hrLoop, ht, hn, if_true, if_false]
    exact List.sublist_append_left clean [t]
  | case6 clean o ao e ae errs f r2 hn1 hn2 ih =>
    simp only [hrLoop, hn1, hn2, if_true, if_false]
    exact ih.trans (List.Sublist.append_left
      (((List.Sublist.refl r2).cons f).cons "2>") clean)
  | case7 clean o ao e ae errs hn1 hn2 =>
    simp only [hrLoop, hn1, hn2, if_true, if_false]
    exact List.sublist_append_left clean ["2>"]
  | case8 clean o ao e ae errs f r2 hn1 hn2 hn3 ih =>
    simp only [hrLoop, hn1, hn2, hn3, if_true, if_false]
    exact ih.trans (List.Sublist.append_left
      (((List.Sublist.refl r2).cons f).cons "2>>") clean)
  | case9 clean o ao e ae errs hn1 hn2 hn3 =>
    simp only [hrLoop, hn1, hn2, hn3, if_true, if_false]
    exact List.sublist_append_left clean ["2>>"]
  | case10 t rest clean o ao e ae errs h1 h2 h3 h4 ih =>
    rw [hrLoop_cons_other t rest clean o ao e ae errs h1 h2 h3 h4]
    have : (clean ++ [t]) ++ rest = clean ++ (t :: rest) := by
      rw [List.append_assoc, List.singleton_append]
    rw [this] at ih
    exact ih

lemma isCrash_withPre (pre : List Effect) (oc : Outcome) :
    (oc.withPre pre).isCrash = oc.isCrash := by
  cases oc <;> rfl

lemma hrLoop_clean_no_directive (ts clean : List String) (o : Option String) (ao : Bool)
    (e : Option String) (ae : Bool) (errs : List String)
    (hc : ∀ x ∈ clean, isDirective x = false) :
    ∀ x ∈ (hrLoop ts clean o ao e ae errs).clean, isDirective x = false := by
  induction ts, clean, o, ao, e, ae, errs using hrLoop.induct with
  | case1 clean o ao e ae errs => simpa [hrLoop] using hc
  | case2 t clean o ao e ae errs ht f r2 ih =>
    simp only [hrLoop, ht, if_true, true_or, or_true]
    exact ih hc
  | case3 t clean o ao e ae errs ht =>
    simpa [hrLoop, ht] using hc
  | case4 t clean o ao e ae errs hn ht f r2 ih =>
    simp only [hrLoop, ht, hn, if_true, if_false]
    exact ih hc
  | case5 t clean o ao e ae errs hn ht =>
    simpa [hrLoop, ht, hn] using hc
  | case6 clean o ao e ae errs f r2 hn1 hn2 ih =>
    simp only [hrLoop, hn1, hn2, if_true, if_false]
    exact ih hc
  | case7 clean o ao e ae errs hn1 hn2 =>
    simpa [hrLoop, hn1, hn2] using hc
  | case8 clean o ao e ae errs f r2 hn1 hn2 hn3 ih =>
    simp only [hrLoop, hn1, hn2, hn3, if_true, if_false]
    exact ih hc
  | case9 clean o ao e ae errs hn1 hn2 hn3 =>
    simpa [hrLoop, hn1, hn2, hn3] using hc
  | case10 t rest clean o ao e ae errs h1 h2 h3 h4 ih =>
    rw [hrLoop_cons_other t rest clean o ao e ae errs h1 h2 h3 h4]
    refine ih ?_
    intro x hx
    rcases List.mem_append.mp hx with hx | hx
    · exact hc x hx
    · rcases List.mem_singleton.mp hx with rfl
      rw [not_or] at h1 h2
      simp [isDirective, isOutputDirective, isErrorDirective,
        h1.1, h1.2, h2.1, h2.2, h3, h4]

/-! ## Claims -/

/-- C2: redirection extraction scans left to right; each directive with
a following token consumes itself and that token, both excluded from
the clean tokens; non-consumed tokens keep their original order and the
clean tokens contain no directive; when several directives target the
same stream the last one determines that stream's file and append flag;
and the concrete example from the spec holds. -/
theorem C2_extraction_scan :
    handle_redirection ["echo", "hi", ">", "out.txt"]
        = ⟨["echo", "hi"], some "out.txt", false, none, false, []⟩
    ∧ (∀ ts : List String, (handle_redirection ts).clean.Sublist ts)
    ∧ (∀ ts : List String, ∀ x ∈ (handle_redirection ts).clean, isDirective x = false)
    ∧ (∀ ts d f, isOutputDirective d = true → (handle_redirection ts).errs = [] →
        handle_redirection (ts ++ [d, f])
          = ⟨(handle_redirection ts).clean, some f, isAppendDirective d,
              (handle_redirection ts).error_file, (handle_redirection ts).append_error, []⟩)
    ∧ (∀ ts d f, isErrorDirective d = true → (handle_redirection ts).errs = [] →
        handle_redirection (ts ++ [d, f])
          = ⟨(handle_redirection ts).clean, (handle_redirection ts).output_file,
              (handle_redirection ts).append_output, some f, isAppendDirective d, []⟩) := by
  refine ⟨rfl, ?_, ?_, ?_, ?_⟩
  · intro ts
    simpa using hrLoop_clean_sublist ts [] none false none false []
  · intro ts
    exact hrLoop_clean_no_directive ts [] none false none false [] (by simp)
  · intro ts d f hd herr
    have h := hrLoop_append [d, f] ts [] none false none false [] herr
    rw [handle_redirection, h]
    simp only [isOutputDirective, Bool.or_eq_true, decide_eq_true_eq] at hd
    rcases hd with ((rfl | rfl) | rfl) | rfl <;>
      simp [hrLoop, isAppendDirective, handle_redirection, herr]
  · intro ts d f hd herr
    have h := hrLoop_append [d, f] ts [] none false none false [] herr
    rw [handle_redirection, h]
    simp only [isErrorDirective, Bool.or_eq_true, decide_eq_true_eq] at hd
    rcases hd with rfl | rfl <;>
      simp [hrLoop, isAppendDirective, handle_redirection, herr]

/-- C2 witness: the last-write-wins clause applied at a concrete input. -/
theorem C2_witness :
    handle_redirection (["a"] ++ [">>", "g"])
      = ⟨(handle_redirection ["a"]).clean, some "g", isAppendDirective ">>",
          (handle_redirection ["a"]).error_file, (handle_redirection ["a"]).append_error, []⟩ :=
  C2_extraction_scan.2.2.2.1 ["a"] ">>" "g" (by decide) (by decide)

/-- C8: a directive that ends the token list with no filename yields
exactly the missing-file syntax error, is itself dropped from the clean
tokens, and leaves the clean tokens and all four redirection fields as
the scan of the preceding tokens produced them. -/
theorem C8_trailing_directive :
    ∀ ts d, isDirective d = true → (handle_redirection ts).errs = [] →
      handle_redirection (ts ++ [d])
        = ⟨(handle_redirection ts).clean, (handle_redirection ts).output_file,
            (handle_redirection ts).append_output, (handle_redirection ts).error_file,
            (handle_redirection ts).append_error, [missingFileMsg d]⟩ := by
  intro ts d hd herr
  have h := hrLoop_append [d] ts [] none false none false [] herr
  rw [handle_redirection, h]
  simp only [isDirective, isOutputDirective, isErrorDirective, Bool.or_eq_true,
    decide_eq_true_eq] at hd
  rcases hd with (((rfl | rfl) | rfl) | rfl) | rfl | rfl <;>
    simp [hrLoop, handle_redirection, missingFileMsg, isOutputDirective, herr]

/-- C8 witness: a trailing `2>` after `echo hi`. -/
theorem C8_witness :
    handle_redirection (["echo", "hi"] ++ ["2>"])
      = ⟨(handle_redirection ["echo", "hi"]).clean,
          (handle_redirection ["echo", "hi"]).output_file,
          (handle_redirection ["echo", "hi"]).append_output,
          (handle_redirection ["echo", "hi"]).error_file,
          (handle_redirection ["echo", "hi"]).append_error, [missingFileMsg "2>"]⟩ :=
  C8_trailing_directive ["echo", "hi"] "2>" (by decide) (by decide)

/-- C10: quoting does not protect a redirection operator: the tokenizer
strips the quotes, so a quoted operator reaches the extractor as a bare
directive and consumes the next token as a filename; `echo '>' f`
redirects an empty echo into `f` instead of printing `>`. -/
theorem C10_quoted_operator_not_literal :
    shlex_split "'>' '1>' '>>' '1>>' '2>' \"2>>\""
        = .ok [">", "1>", ">>", "1>>", "2>", "2>>"]
    ∧ shlex_split "echo '>' f" = .ok ["echo", ">", "f"]
    ∧ handle_redirection ["echo", ">", "f"]
        = ⟨["echo"], some "f", false, none, false, []⟩
    ∧ processLine envBenign "echo '>' f"
        = .cont envBenign [⟨Sink.file "f" false, "\n"⟩]
    ∧ shlex_split "echo \"2>>\" f" = .ok ["echo", "2>>", "f"]
    ∧ handle_redirection ["echo", "2>>", "f"]
        = ⟨["echo"], none, false, some "f", true, []⟩ :=
  ⟨rfl, rfl, rfl, rfl, rfl, rfl⟩

/-- C3: the `exit` built-in terminates the session with status 0 if and
only if the clean tokens are exactly `["exit", "0"]`; for every other
argument count or value the line falls through to the default
external-command resolution path. -/
theorem C3_exit_exact_form :
    (∀ env hd args o ao e ae,
      (runCommand env hd args o ao e ae).isExit = true ↔ (hd = "exit" ∧ args = ["0"]))
    ∧ (∀ env args o ao e ae, args ≠ ["0"] →
        runCommand env "exit" args o ao e ae
          = .cont env (execute_quoted_executable env "exit" args o ao e ae)) := by
  constructor
  · intro env hd args o ao e ae
    constructor
    · intro hx
      unfold runCommand at hx
      split_ifs at hx with h1 h2 h3 h4 h5
      · obtain ⟨rfl, hlen, hidx⟩ := h1
        refine ⟨rfl, ?_⟩
        match args, hlen, hidx with
        | [a], _, hidx =>
          simp at hidx
          rw [hidx]
      · cases o with
        | none => simp [Outcome.isExit] at hx
        | some f => cases hfo : env.fsOpen f <;> simp [hfo, Outcome.isExit] at hx
      · cases args <;> simp [Outcome.isExit] at hx
      · cases o with
        | none => simp [Outcome.isExit] at hx
        | some f => cases hfo : env.fsOpen f <;> simp [hfo, Outcome.isExit] at hx
      · cases args with
        | nil =>
          cases hfs : env.fsChdir (env.home.getD "/") <;>
            simp [hfs, Outcome.isExit] at hx
        | cons p rest => simp [Outcome.isExit] at hx
      · simp [Outcome.isExit] at hx
    · rintro ⟨rfl, rfl⟩
      unfold runCommand
      rw [if_pos ⟨rfl, rfl, rfl⟩]
      rfl
  · intro env args o ao e ae hne
    unfold runCommand
    rw [if_neg, if_neg (by decide), if_neg (by decide), if_neg (by decide),
      if_neg (by decide)]
    rintro ⟨-, hlen, hidx⟩
    match args, hlen, hidx with
    | [a], _, hidx =>
      simp at hidx
      exact hne (by rw [hidx])

/-- C3 witness: `exit 1` does not exit and goes to external
resolution. -/
theorem C3_witness :
    runCommand envBenign "exit" ["1"] none false none false
      = .cont envBenign
          (execute_quoted_executable envBenign "exit" ["1"] none false none false) :=
  C3_exit_exact_form.2 envBenign ["1"] none false none false (by decide)

/-- C9: the three launch-failure classes each produce exactly their
diagnostic on standard error (`<name>: command not found`,
`<name>: permission denied`, `Error running command: <detail>`), and the
external branch of the dispatcher always continues the session. -/
theorem C9_launch_failure_classes :
    (∀ env hd tl o ao e ae, env.launch (hd :: tl) = LaunchOutcome.fileNotFound →
        run_external_command env (hd :: tl) o ao e ae
          = [⟨Sink.stderr, hd ++ ": command not found\n"⟩])
    ∧ (∀ env hd tl o ao e ae, env.launch (hd :: tl) = LaunchOutcome.permissionDenied →
        run_external_command env (hd :: tl) o ao e ae
          = [⟨Sink.stderr, hd ++ ": permission denied\n"⟩])
    ∧ (∀ env hd tl o ao e ae d, env.launch (hd :: tl) = LaunchOutcome.otherFailure d →
        run_external_command env (hd :: tl) o ao e ae
          = [⟨Sink.stderr, "Error running command: " ++ d ++ "\n"⟩])
    ∧ (∀ env hd args o ao e ae,
        hd ≠ "exit" → hd ≠ "echo" → hd ≠ "type" → hd ≠ "pwd" → hd ≠ "cd" →
        runCommand env hd args o ao e ae
          = .cont env (execute_quoted_executable env hd args o ao e ae)) := by
  refine ⟨?_, ?_, ?_, ?_⟩
  · intro env hd tl o ao e ae h
    simp [run_external_command, h]
  · intro env hd tl o ao e ae h
    simp [run_external_command, h]
  · intro env hd tl o ao e ae d h
    simp [run_external_command, h]
  · intro env hd args o ao e ae h1 h2 h3 h4 h5
    unfold runCommand
    rw [if_neg (by rintro ⟨h, -⟩; exact h1 h), if_neg h2, if_neg h3, if_neg h4,
      if_neg h5]

/-- C9 witness: a vanished executable reports `command not found`. -/
theorem C9_witness :
    run_external_command envVanished ["tool"] none false none false
      = [⟨Sink.stderr, "tool" ++ ": command not found\n"⟩] :=
  C9_launch_failure_classes.1 envVanished "tool" [] none false none false rfl

/-- C5 counterexample: with an extracted output target `f`, the `type`
built-in still writes its report to the session's standard output, not
to `f` — refuting the claim that `type` honors output redirection. -/
theorem C5_counterexample :
    processLine envBenign "type cd > f"
      = .cont envBenign [⟨Sink.stdout, "cd is a shell builtin\n"⟩] := rfl

/-- C5 (amended): `echo` and `pwd` write their normal output to the
extracted output target (with the extracted append mode); `type` writes
only to the session's streams, ignoring the redirection spec entirely. -/
theorem C5_builtin_redirection :
    (∀ args f a, runEcho args (some f) a
        = [⟨Sink.file f a, String.intercalate " " args ++ "\n"⟩])
    ∧ (∀ env f a, runPwd env (some f) a = [⟨Sink.file f a, env.cwd ++ "\n"⟩])
    ∧ (∀ env c, ∀ x ∈ runType env c, x.sink = Sink.stdout ∨ x.sink = Sink.stderr) := by
  refine ⟨fun args f a => rfl, fun env f a => rfl, ?_⟩
  intro env c x hx
  unfold runType at hx
  split at hx
  · rcases List.mem_singleton.mp hx with rfl
    exact Or.inl rfl
  · split at hx <;> rcases List.mem_singleton.mp hx with rfl
    · exact Or.inl rfl
    · exact Or.inr rfl

/-- C5 witness: the `type` clause applied to its concrete output
effect. -/
theorem C5_witness :
    (⟨Sink.stdout, "cd is a shell builtin\n"⟩ : Effect).sink = Sink.stdout
      ∨ (⟨Sink.stdout, "cd is a shell builtin\n"⟩ : Effect).sink = Sink.stderr :=
  C5_builtin_redirection.2.2 envBenign "cd"
    ⟨Sink.stdout, "cd is a shell builtin\n"⟩ (by decide)

/-- C4 counterexample: the bare name `localtool` denotes an executable
regular file in the working directory, and the working directory is not
on the search path (the realizable state `envCwdTool`).  The Command
Resolver's direct executable-file check resolves the name to itself and
the executor proceeds to launch it with the literal name (the launch
then fails in the operating system's `exec` PATH search, yielding the
launch-failure diagnostic), while `type localtool` — consulting only
the search path — reports `not found`.  So `type` does not use the same
external-path logic as the resolver: it reports no path although
running the name resolves to an external executable. -/
theorem C4_counterexample :
    resolverExternalPath envCwdTool "localtool" = some "localtool"
    ∧ runType envCwdTool "localtool" = [⟨Sink.stderr, "localtool: not found\n"⟩]
    ∧ execute_quoted_executable envCwdTool "localtool" [] none false none false
        = run_external_command envCwdTool ["localtool"] none false none false :=
  ⟨rfl, rfl, rfl⟩

/-- C4 (amended): for a non-built-in name, `type` consults only the
search path (`find_executable`), omitting the Command Resolver's direct
executable-file check; it agrees with the resolver's external-path
logic exactly on names for which the direct check fails.  The checks
differ on bare names denoting an executable file in the working
directory when that directory is not on the search path: there the
resolver resolves and invokes the literal name while `type` reports
`not found` (for names containing a directory separator, `shutil.which`
itself performs the direct check, so no divergence arises). -/
theorem C4_type_path_only :
    ∀ env hd tl o ao e ae, hd ∉ BUILTIN_COMMANDS → env.isExecFile hd = false →
      ((env.which hd = none →
          runType env hd = [⟨Sink.stderr, hd ++ ": not found\n"⟩]
          ∧ execute_quoted_executable env hd tl o ao e ae
              = [⟨Sink.stderr, hd ++ ": command not found\n"⟩])
        ∧ (∀ p, env.which hd = some p →
          runType env hd = [⟨Sink.stdout, hd ++ " is " ++ p ++ "\n"⟩]
          ∧ execute_quoted_executable env hd tl o ao e ae
              = run_external_command env (p :: tl) o ao e ae)) := by
  intro env hd tl o ao e ae hmem hexec
  constructor
  · intro hw
    constructor
    · simp [runType, hmem, find_executable, hw]
    · simp [execute_quoted_executable, hexec, find_executable, hw]
  · intro p hw
    constructor
    · simp [runType, hmem, find_executable, hw]
    · simp [execute_quoted_executable, hexec, find_executable, hw]

/-- C4 witness: the agreement clause at a concrete unresolvable name. -/
theorem C4_witness :
    runType envBenign "./nosuch" = [⟨Sink.stderr, "./nosuch: not found\n"⟩]
      ∧ execute_quoted_executable envBenign "./nosuch" [] none false none false
          = [⟨Sink.stderr, "./nosuch: command not found\n"⟩] :=
  (C4_type_path_only envBenign "./nosuch" [] none false none false
    (by decide) rfl).1 rfl

/-- C6: whenever `cd`'s directory change fails with one of the three
caught errors, the working directory is unchanged, exactly the
diagnostic `cd: <path>: <reason>` goes to standard error, a subsequent
`pwd` reports the same directory as before, and the dispatcher
continues the session. -/
theorem C6_cd_failure_preserves_cwd :
    ∀ env path err,
      env.fsChdir (absPath env.cwd (tildeResolve env path)) = some err →
      (change_directory env path).1 = env
      ∧ (change_directory env path).2
          = [⟨Sink.stderr, "cd: " ++ tildeResolve env path ++ ": " ++ err.reason ++ "\n"⟩]
      ∧ runPwd (change_directory env path).1 none false = runPwd env none false
      ∧ (∀ o ao e ae, runCommand env "cd" [path] o ao e ae
          = .cont (change_directory env path).1 (change_directory env path).2) := by
  intro env path err h
  have hcd : change_directory env path
      = (env, [⟨Sink.stderr,
          "cd: " ++ tildeResolve env path ++ ": " ++ err.reason ++ "\n"⟩]) := by
    unfold change_directory
    rw [h]
    cases err <;> simp [ChdirError.reason, String.append_assoc]
  refine ⟨by rw [hcd], by rw [hcd], by rw [hcd], ?_⟩
  intro o ao e ae
  unfold runCommand
  rw [if_neg (by rintro ⟨h, -⟩; exact absurd h (by decide)), if_neg (by decide),
    if_neg (by decide), if_neg (by decide), if_pos rfl]

/-- C6 witness: `cd /nonexistent/path` in a session whose filesystem
reports `FileNotFoundError`. -/
theorem C6_witness :
    (change_directory envNoHome "/nonexistent/path").1 = envNoHome
      ∧ (change_directory envNoHome "/nonexistent/path").2
          = [⟨Sink.stderr, "cd: " ++ tildeResolve envNoHome "/nonexistent/path" ++ ": "
              ++ ChdirError.fileNotFound.reason ++ "\n"⟩]
      ∧ runPwd (change_directory envNoHome "/nonexistent/path").1 none false
          = runPwd envNoHome none false
      ∧ (∀ o ao e ae, runCommand envNoHome "cd" ["/nonexistent/path"] o ao e ae
          = .cont (change_directory envNoHome "/nonexistent/path").1
              (change_directory envNoHome "/nonexistent/path").2) :=
  C6_cd_failure_preserves_cwd envNoHome "/nonexistent/path" ChdirError.fileNotFound rfl

/-- C7 counterexample: the tokenizer keeps the backslash of `\$` inside
double quotes: `"a\$b"` yields the token `a\$b`, not the claimed
`a$b`. -/
theorem C7_counterexample :
    shlex_split "\"a\\$b\"" = Except.ok ["a\\$b"]
    ∧ shlex_split "\"a\\$b\"" ≠ Except.ok ["a$b"] := by
  refine ⟨rfl, ?_⟩
  intro h
  have h2 : (Except.ok ["a\\$b"] : Except String (List String)) = Except.ok ["a$b"] := h
  injection h2 with h3
  exact absurd h3 (by decide)

/-- C7 (amended): inside double quotes a backslash escapes (and is
removed before) exactly the two characters `"` and `\`; before every
other character — including `$` — the backslash itself is kept as a
literal character; tokenizing `"a\$b"` yields the single token
`a\$b`. -/
theorem C7_double_quote_escapes :
    (∀ c : Char, shlexRun ['"', '\\', c, '"'] LexMode.space false [] []
        = .ok [if c = '"' ∨ c = '\\' then [c] else ['\\', c]])
    ∧ shlex_split "\"\\\"\"" = .ok ["\""]
    ∧ shlex_split "\"\\\\\"" = .ok ["\\"]
    ∧ shlex_split "\"a\\$b\"" = .ok ["a\\$b"] := by
  refine ⟨?_, rfl, rfl, rfl⟩
  intro c
  by_cases h1 : c = '"'
  · subst h1; rfl
  · by_cases h2 : c = '\\'
    · subst h2; rfl
    · show shlexRun [c, '"'] LexMode.escDouble true [] [] = _
      rw [if_neg (by tauto)]
      simp only [shlexRun]
      rw [if_pos ⟨h2, h1⟩]
      rfl

/-- The dispatcher never crashes except for `type` with no argument and
`cd` with no argument whose home-directory change fails, and a
redirected `echo` or `pwd` whose output target fails to open. -/
lemma runCommand_no_crash (env : Env) (hd : String) (args : List String)
    (o : Option String) (ao : Bool) (e : Option String) (ae : Bool)
    (htype : hd = "type" → args ≠ [])
    (hcd : hd = "cd" → args ≠ [] ∨ env.fsChdir (env.home.getD "/") = none)
    (hopen : hd = "echo" ∨ hd = "pwd" → ∀ f, o = some f → env.fsOpen f = none) :
    (runCommand env hd args o ao e ae).isCrash = false := by
  unfold runCommand
  split_ifs with h1 h2 h3 h4 h5
  · rfl
  · cases o with
    | none => rfl
    | some f => simp [hopen (Or.inl h2) f rfl, Outcome.isCrash]
  · cases args with
    | nil => exact absurd rfl (htype h3)
    | cons a rest => rfl
  · cases o with
    | none => rfl
    | some f => simp [hopen (Or.inr h4) f rfl, Outcome.isCrash]
  · cases args with
    | nil =>
      rcases hcd h5 with h | h
      · exact absurd rfl h
      · simp [h, Outcome.isCrash]
    | cons p rest => rfl
  · rfl

/-- C1 counterexample: a zero-argument `cd` in a session whose home
directory does not exist raises an uncaught `FileNotFoundError` from
`os.chdir`, so a directory-change failure propagates past the current
line and terminates the session. -/
theorem C1_counterexample : (processLine envNoHome "cd").isCrash = true := rfl

/-- C1 (amended): every error raised on a guarded path while processing
a line — parse errors, redirection syntax errors, resolution failures,
every failure inside the external executor's `try` block, and the three
caught directory-change failure classes of `cd` with an argument — is
caught and reported to standard error, and the loop continues to the
next prompt, terminating only on `exit 0` or end-of-input.  Unguarded
operations whose failures propagate past the line and terminate the
session include: `type` invoked with no argument (`IndexError`), `cd`
invoked with no argument when the change to the home directory fails,
and the `open` of an extracted output target in the `echo` and `pwd`
branches (e.g. `echo hi > /`); a `cd` failure outside the three caught
exception classes would likewise escape (the filesystem collaborator
modelled here answers only with the caught classes).  Every line
avoiding these unguarded failures never crashes. -/
theorem C1_errors_contained :
    ∀ env rawLine,
      ((cleanTokensOf rawLine).head? = some "type" → (cleanTokensOf rawLine).tail ≠ []) →
      ((cleanTokensOf rawLine).head? = some "cd" →
        (cleanTokensOf rawLine).tail ≠ [] ∨ env.fsChdir (env.home.getD "/") = none) →
      ((cleanTokensOf rawLine).head? = some "echo" ∨
          (cleanTokensOf rawLine).head? = some "pwd" →
        ∀ f, outputTargetOf rawLine = some f → env.fsOpen f = none) →
      (processLine env rawLine).isCrash = false := by
  intro env rawLine htype hcd hopen
  unfold processLine
  by_cases hl : pyStrip rawLine = ""
  · simp [hl, Outcome.isCrash]
  · rw [if_neg hl]
    by_cases hp : (parse_input (pyStrip rawLine)).1 = []
    · simp [hp, Outcome.isCrash]
    · simp only [hp, if_false]
      cases hc : (handle_redirection (parse_input (pyStrip rawLine)).1).clean with
      | nil => simp [Outcome.isCrash]
      | cons hd args =>
        have hct : cleanTokensOf rawLine = hd :: args := hc
        rw [isCrash_withPre]
        refine runCommand_no_crash env hd args _ _ _ _ ?_ ?_ ?_
        · rintro rfl
          intro hargs
          exact htype (by rw [hct]; rfl) (by rw [hct, hargs]; rfl)
        · rintro rfl
          rcases hcd (by rw [hct]; rfl) with h | h
          · left
            intro hargs
            exact h (by rw [hct, hargs]; rfl)
          · exact Or.inr h
        · intro hor f hf
          refine hopen ?_ f hf
          rcases hor with rfl | rfl
          · exact Or.inl (by rw [hct]; rfl)
          · exact Or.inr (by rw [hct]; rfl)

/-- C1 witness: an ordinary redirected `echo` satisfies the side
conditions (its target opens) and the loop continues. -/
theorem C1_witness : (processLine envBenign "echo hi > f").isCrash = false :=
  C1_errors_contained envBenign "echo hi > f" (by decide) (by decide)
    (fun _ f hf => by
      have h2 : (some "f" : Option String) = some f := hf
      injection h2 with h3
      subst h3
      rfl)

end PyShellX
